import Mathlib

/-!
# Verification of the sticky-notes application (`src/main.py`)

Shallow embedding of the reproducible logic of the sticky-notes desktop
utility: the in-memory note list (`StickyNote.notes`), the note window's
geometry/drag/resize state, and the JSON persistence store
(`save_notes` / `load_notes`).

Modelling conventions:
* Pixel coordinates are modelled as `Int`.  The GUI toolkit reports mouse
  positions as floats and the code truncates with `int(...)` after the
  `max` clamp; the truncation of a value that is already `≥ 100` stays
  `≥ 100`, so integer coordinates are exact for every property below.
* The persisted file is modelled as a small JSON value type plus a
  `FileContent` wrapper distinguishing a missing file and a file whose
  bytes are not valid JSON (`json.load` raises `JSONDecodeError` there).
* GUI-only effects (styling, clipboard, tray messages, the 200 ms flash
  timer) have no bearing on note state or the store and are not modelled,
  matching the spec's stated non-goals.
-/

namespace StickyNotes

/-- JSON values, as produced by Python's `json` module for this store
(numbers are integers throughout the program). -/
inductive Json where
  | null
  | bool (b : Bool)
  | num (n : Int)
  | str (s : String)
  | arr (elems : List Json)
  | obj (fields : List (String × Json))

mutual

/-- Decidable equality on `Json` (the deriving handler does not support
this nested inductive). -/
def jsonDecEq : (a b : Json) → Decidable (a = b)
  | .null, .null => .isTrue rfl
  | .bool a, .bool b =>
    if h : a = b then .isTrue (by rw [h]) else .isFalse (fun hh => h (Json.bool.inj hh))
  | .num a, .num b =>
    if h : a = b then .isTrue (by rw [h]) else .isFalse (fun hh => h (Json.num.inj hh))
  | .str a, .str b =>
    if h : a = b then .isTrue (by rw [h]) else .isFalse (fun hh => h (Json.str.inj hh))
  | .arr xs, .arr ys =>
    match jsonListDecEq xs ys with
    | .isTrue h => .isTrue (by rw [h])
    | .isFalse h => .isFalse (fun hh => h (Json.arr.inj hh))
  | .obj xs, .obj ys =>
    match jsonFieldsDecEq xs ys with
    | .isTrue h => .isTrue (by rw [h])
    | .isFalse h => .isFalse (fun hh => h (Json.obj.inj hh))
  | .null, .bool _ => .isFalse nofun
  | .null, .num _ => .isFalse nofun
  | .null, .str _ => .isFalse nofun
  | .null, .arr _ => .isFalse nofun
  | .null, .obj _ => .isFalse nofun
  | .bool _, .null => .isFalse nofun
  | .bool _, .num _ => .isFalse nofun
  | .bool _, .str _ => .isFalse nofun
  | .bool _, .arr _ => .isFalse nofun
  | .bool _, .obj _ => .isFalse nofun
  | .num _, .null => .isFalse nofun
  | .num _, .bool _ => .isFalse nofun
  | .num _, .str _ => .isFalse nofun
  | .num _, .arr _ => .isFalse nofun
  | .num _, .obj _ => .isFalse nofun
  | .str _, .null => .isFalse nofun
  | .str _, .bool _ => .isFalse nofun
  | .str _, .num _ => .isFalse nofun
  | .str _, .arr _ => .isFalse nofun
  | .str _, .obj _ => .isFalse nofun
  | .arr _, .null => .isFalse nofun
  | .arr _, .bool _ => .isFalse nofun
  | .arr _, .num _ => .isFalse nofun
  | .arr _, .str _ => .isFalse nofun
  | .arr _, .obj _ => .isFalse nofun
  | .obj _, .null => .isFalse nofun
  | .obj _, .bool _ => .isFalse nofun
  | .obj _, .num _ => .isFalse nofun
  | .obj _, .str _ => .isFalse nofun
  | .obj _, .arr _ => .isFalse nofun

/-- Decidable equality on lists of `Json` values. -/
def jsonListDecEq : (a b : List Json) → Decidable (a = b)
  | [], [] => .isTrue rfl
  | [], _ :: _ => .isFalse nofun
  | _ :: _, [] => .isFalse nofun
  | x :: xs, y :: ys =>
    match jsonDecEq x y with
    | .isFalse h => .isFalse (fun hh => h (List.cons.inj hh).1)
    | .isTrue h1 =>
      match jsonListDecEq xs ys with
      | .isTrue h2 => .isTrue (by rw [h1, h2])
      | .isFalse h => .isFalse (fun hh => h (List.cons.inj hh).2)

/-- Decidable equality on JSON object field lists. -/
def jsonFieldsDecEq : (a b : List (String × Json)) → Decidable (a = b)
  | [], [] => .isTrue rfl
  | [], _ :: _ => .isFalse nofun
  | _ :: _, [] => .isFalse nofun
  | (k1, v1) :: xs, (k2, v2) :: ys =>
    if hk : k1 = k2 then
      match jsonDecEq v1 v2 with
      | .isFalse h =>
        .isFalse (fun hh => h (congrArg Prod.snd (List.cons.inj hh).1))
      | .isTrue h1 =>
        match jsonFieldsDecEq xs ys with
        | .isTrue h2 => .isTrue (by rw [hk, h1, h2])
        | .isFalse h => .isFalse (fun hh => h (List.cons.inj hh).2)
    else
      .isFalse (fun hh => hk (congrArg Prod.fst (List.cons.inj hh).1))

end

instance : DecidableEq Json := jsonDecEq

/-- Contents of `sticky_notes.json` on disk: absent, present but not valid
JSON (unparseable bytes), or a parsed JSON value. -/
inductive FileContent where
  | missing
  | invalid
  | json (j : Json)
  deriving DecidableEq

/-- `self.resize_margin = 25` (line 192). -/
def resize_margin : Int := 25

/-- `self.setMinimumSize(100, 100)` (line 115): Qt's minimum width. -/
def minimumWidth : Int := 100

/-- `self.setMinimumSize(100, 100)` (line 115): Qt's minimum height. -/
def minimumHeight : Int := 100

/-- The per-window state of one `StickyNote`: the text buffer, window
geometry, and the drag/resize bookkeeping set in the mouse handlers
(`_dragging`, `_resizing`, `_start_pos`, `_start_size`). -/
structure NoteState where
  text : String
  x : Int
  y : Int
  width : Int
  height : Int
  dragging : Bool
  resizing : Bool
  startPos : Option (Int × Int)
  startSize : Option (Int × Int)
  deriving DecidableEq

/-- `widget.move(x, y)`: moving a window has no size constraint. -/
def qtMove (n : NoteState) (nx ny : Int) : NoteState :=
  { n with x := nx, y := ny }

/-- `widget.resize(w, h)` under `setMinimumSize(100, 100)`: Qt clamps the
requested size to the minimum size. -/
def qtResize (n : NoteState) (w h : Int) : NoteState :=
  { n with width := max w minimumWidth, height := max h minimumHeight }

/-- `StickyNote.__init__(initial_text)` (lines 105-195): the note is
appended to the class list by the caller (`noteInitApp` below); the text
widget starts empty and `setPlainText` runs only under
`if initial_text:`; `self.resize(200, 200)` sets the initial size; the
drag/resize fields start cleared.  `dx, dy` stand for the
platform-assigned initial window position (the code never calls `move`
during `__init__`). -/
def stickyNoteInit (dx dy : Int) (initial_text : String) : NoteState :=
  { text := if initial_text = "" then "" else initial_text
    x := dx
    y := dy
    width := max 200 minimumWidth
    height := max 200 minimumHeight
    dragging := false
    resizing := false
    startPos := none
    startSize := none }

/-- One record of the persisted store, and also the observable part of a
note (`{text, x, y, width, height}`). -/
structure NoteRecord where
  text : String
  x : Int
  y : Int
  width : Int
  height : Int
  deriving DecidableEq

/-- The observable projection of a note: exactly the fields `save_notes`
persists. -/
def obs (n : NoteState) : NoteRecord :=
  ⟨n.text, n.x, n.y, n.width, n.height⟩

/-- The dict `save_notes` builds for one note (lines 88-94), with keys in
source order. -/
def encodeNote (n : NoteState) : Json :=
  .obj [("text", .str n.text), ("x", .num n.x), ("y", .num n.y),
        ("width", .num n.width), ("height", .num n.height)]

/-- Global application state: the class-level list `StickyNote.notes` and
the contents of `sticky_notes.json`. -/
structure AppState where
  notes : List NoteState
  file : FileContent
  deriving DecidableEq

/-- `StickyNotesApp.save_notes` (lines 85-97): serialize every note in
`StickyNote.notes`, in list order, and overwrite the file with the JSON
array. -/
def save_notes (s : AppState) : AppState :=
  { s with file := .json (.arr (s.notes.map encodeNote)) }

/-- `StickyNote.on_text_changed` (lines 197-201): every `textChanged`
signal calls `save_notes` on the application (the `hasattr` guard always
holds once the app object exists). -/
def on_text_changed (s : AppState) : AppState :=
  save_notes s

/-- Construction of a `StickyNote(text)` inside the running app:
`__init__` first appends the new note to `StickyNote.notes` (line 107)
and later calls `setPlainText` when `initial_text` is non-empty
(lines 178-179), which fires `textChanged` and hence `save_notes` — at a
moment when the new note still has its default geometry. -/
def noteInitApp (s : AppState) (dx dy : Int) (text : String) : AppState :=
  let s1 : AppState := { s with notes := s.notes ++ [stickyNoteInit dx dy text] }
  if text = "" then s1 else on_text_changed s1

/-- `StickyNotesApp.create_note_safe(text, pos, size)` (lines 63-68):
construct the note, then `move` when a position was passed and `resize`
when a size was passed.  (A PyQt `QPoint`/`QSize` object is always
truthy, so `if pos:` / `if size:` test for the argument being passed.) -/
def create_note_safe (s : AppState) (dx dy : Int) (text : String)
    (pos : Option (Int × Int)) (size : Option (Int × Int)) : AppState :=
  let afterInit := noteInitApp s dx dy text
  let note0 := stickyNoteInit dx dy text
  let note1 := match pos with
    | some p => qtMove note0 p.1 p.2
    | none => note0
  let note2 := match size with
    | some sz => qtResize note1 sz.1 sz.2
    | none => note1
  { afterInit with notes := s.notes ++ [note2] }

/-- First-match association lookup, Python's `d[k]` on a JSON object. -/
def jlookup : List (String × Json) → String → Option Json
  | [], _ => none
  | (k, v) :: rest, key => if k = key then some v else jlookup rest key

/-- A JSON value usable as the note text (anything else makes
`setPlainText` raise `TypeError`). -/
def asStr : Json → Option String
  | .str s => some s
  | _ => none

/-- A JSON value usable as a coordinate (anything else makes
`QPoint`/`QSize` raise `TypeError`). -/
def asInt : Json → Option Int
  | .num n => some n
  | _ => none

/-- Reading one record inside `load_notes` (lines 75-79): `note_data`
must be a dict (anything else raises `TypeError` on subscripting) and
each of the five keys must be present (`KeyError` otherwise) with a value
of the right type.  `none` stands for the raised exception. -/
def decodeNote : Json → Option NoteRecord
  | .obj fields => do
    let t ← jlookup fields "text" >>= asStr
    let px ← jlookup fields "x" >>= asInt
    let py ← jlookup fields "y" >>= asInt
    let w ← jlookup fields "width" >>= asInt
    let h ← jlookup fields "height" >>= asInt
    pure ⟨t, px, py, w, h⟩
  | _ => none

/-- The `for note_data in notes_data:` loop of `load_notes`: each record
is decoded and handed to `create_note_safe`; a malformed record raises,
aborting startup. -/
def loadLoop (dx dy : Int) : AppState → List Json → Except String AppState
  | s, [] => .ok s
  | s, j :: rest =>
    match decodeNote j with
    | none => .error "unhandled exception while reading a note record"
    | some r =>
      loadLoop dx dy
        (create_note_safe s dx dy r.text (some (r.x, r.y)) (some (r.width, r.height)))
        rest

/-- `StickyNotesApp.load_notes` (lines 70-79): nothing happens when the
file is absent; `json.load` raises on unparseable bytes; iterating a
non-list top value either raises `TypeError` or, for an empty string or
empty dict, iterates zero times. -/
def load_notes (dx dy : Int) (s : AppState) : Except String AppState :=
  match s.file with
  | .missing => .ok s
  | .invalid => .error "json.decoder.JSONDecodeError"
  | .json (.arr elems) => loadLoop dx dy s elems
  | .json (.str cs) => if cs = "" then .ok s else .error "TypeError"
  | .json (.obj []) => .ok s
  | .json (.obj (_ :: _)) => .error "TypeError"
  | .json _ => .error "TypeError"

/-- `StickyNote.delete_note` (lines 225-231): `StickyNote.notes.remove(self)`
removes exactly the receiver (object identity), here the note at index
`i`; then `save_notes` runs before the window closes. -/
def delete_note (s : AppState) (i : Nat) : AppState :=
  save_notes { s with notes := s.notes.eraseIdx i }

/-- `StickyNote.create_new_note` (lines 218-223).  It is a `@classmethod`:
the note whose "+" button was clicked is not available to it.  A fresh
blank note is constructed (appending it to the class list); when the list
then holds more than one note, the new note is moved 20 px right and down
of `cls.notes[-2]` — the most recently created pre-existing note. -/
def create_new_note (dx dy : Int) (s : AppState) : AppState :=
  let note0 := stickyNoteInit dx dy ""
  let appended := s.notes ++ [note0]
  if appended.length > 1 then
    match appended.get? (appended.length - 2) with
    | some prev => { s with notes := s.notes ++ [qtMove note0 (prev.x + 20) (prev.y + 20)] }
    | none => { s with notes := appended }
  else { s with notes := appended }

/-- Replace the element at index `i` (identity when out of range). -/
def modifyAt : List NoteState → Nat → (NoteState → NoteState) → List NoteState
  | [], _, _ => []
  | a :: rest, 0, f => f a :: rest
  | a :: rest, Nat.succ j, f => a :: modifyAt rest j f

/-- The user edits the text of note `i`: the buffer changes and the
`textChanged` signal fires `on_text_changed` (line 174 wiring). -/
def setNoteText (s : AppState) (i : Nat) (t : String) : AppState :=
  on_text_changed { s with notes := modifyAt s.notes i (fun n => { n with text := t }) }

/-- Mouse buttons, as far as the handlers distinguish them. -/
inductive MouseButton where
  | left
  | right
  | middle
  deriving DecidableEq

/-- `StickyNote.mousePressEvent` (lines 233-247): only an unmodified left
press arms a gesture; a Ctrl+left press calls `copy_with_feedback`
(clipboard and a style flash — no note state touched); the bottom-right
corner region (within `resize_margin` of both edges and below the 40 px
toolbar) arms resizing, any other point arms dragging. -/
def mousePressEvent (n : NoteState) (button : MouseButton) (ctrlModifier : Bool)
    (px py : Int) : NoteState :=
  if button = MouseButton.left then
    if ctrlModifier then n
    else if px > n.width - resize_margin ∧ py > n.height - resize_margin ∧ py > 40 then
      { n with resizing := true, startPos := some (px, py),
               startSize := some (n.width, n.height) }
    else
      { n with dragging := true, startPos := some (px, py) }
  else n

/-- `StickyNote.mouseMoveEvent` (lines 249-257): while resizing, the new
size is the start size plus the mouse delta, floored at the minimum size;
while dragging, the window moves by the delta.  (The resizing branch
reads `_start_size` unguarded; a press always sets it together with
`_resizing`, so the `none` fallback is unreachable in the running app —
Python would raise `AttributeError` there.) -/
def mouseMoveEvent (n : NoteState) (px py : Int) : NoteState :=
  if n.resizing ∧ n.startPos ≠ none then
    match n.startPos, n.startSize with
    | some sp, some ss =>
      qtResize n (max (ss.1 + (px - sp.1)) minimumWidth)
                 (max (ss.2 + (py - sp.2)) minimumHeight)
    | _, _ => n
  else if n.dragging ∧ n.startPos ≠ none then
    match n.startPos with
    | some sp => qtMove n (n.x + (px - sp.1)) (n.y + (py - sp.2))
    | none => n
  else n

/-- `StickyNote.mouseReleaseEvent` (lines 259-263): any release clears
both gesture flags and the start bookkeeping. -/
def mouseReleaseEvent (n : NoteState) : NoteState :=
  { n with dragging := false, resizing := false,
           startPos := none, startSize := none }

/-- A press routed to note `i`; mouse handlers never touch the file. -/
def appMousePress (s : AppState) (i : Nat) (b : MouseButton) (c : Bool)
    (px py : Int) : AppState :=
  { s with notes := modifyAt s.notes i (fun n => mousePressEvent n b c px py) }

/-- A move routed to note `i`; mouse handlers never touch the file. -/
def appMouseMove (s : AppState) (i : Nat) (px py : Int) : AppState :=
  { s with notes := modifyAt s.notes i (fun n => mouseMoveEvent n px py) }

/-- A release routed to note `i`; mouse handlers never touch the file. -/
def appMouseRelease (s : AppState) (i : Nat) : AppState :=
  { s with notes := modifyAt s.notes i mouseReleaseEvent }

/-- The width/height floor from `setMinimumSize(100, 100)`. -/
def sizeInv (n : NoteState) : Prop :=
  minimumWidth ≤ n.width ∧ minimumHeight ≤ n.height

instance (n : NoteState) : Decidable (sizeInv n) := by
  unfold sizeInv; infer_instance

/-- The five keys of a persisted record, in the order `save_notes` writes
them. -/
def requiredKeys : List String := ["text", "x", "y", "width", "height"]

/-- Key list of a JSON object (empty for non-objects). -/
def objKeys : Json → List String
  | .obj fields => fields.map Prod.fst
  | _ => []

/-! ## General lemmas about the embedding -/

/-- Reading back the dict written by `save_notes` recovers exactly the
observable part of the note. -/
theorem decode_encode (n : NoteState) : decodeNote (encodeNote n) = some (obs n) := rfl

@[simp]
theorem obs_text (n : NoteState) : (obs n).text = n.text := rfl

@[simp]
theorem obs_x (n : NoteState) : (obs n).x = n.x := rfl

@[simp]
theorem obs_y (n : NoteState) : (obs n).y = n.y := rfl

@[simp]
theorem obs_width (n : NoteState) : (obs n).width = n.width := rfl

@[simp]
theorem obs_height (n : NoteState) : (obs n).height = n.height := rfl

/-- The note `create_note_safe` ends up with when both a position and a
size are passed, as during `load_notes`. -/
theorem create_note_safe_notes (s : AppState) (dx dy : Int) (t : String)
    (p1 p2 q1 q2 : Int) :
    (create_note_safe s dx dy t (some (p1, p2)) (some (q1, q2))).notes =
      s.notes ++ [qtResize (qtMove (stickyNoteInit dx dy t) p1 p2) q1 q2] := rfl

/-- Loading a record that satisfies the size floor reconstructs a note
with the same observable fields. -/
theorem obs_reconstruct (dx dy : Int) (n : NoteState) (h : sizeInv n) :
    obs (qtResize (qtMove (stickyNoteInit dx dy n.text) n.x n.y) n.width n.height) = obs n := by
  obtain ⟨h1, h2⟩ := h
  have hw : max n.width minimumWidth = n.width := max_eq_left h1
  have hh : max n.height minimumHeight = n.height := max_eq_left h2
  by_cases ht : n.text = "" <;>
    simp [obs, qtResize, qtMove, stickyNoteInit, ht, hw, hh]

/-- `modifyAt` preserves the list length. -/
theorem modifyAt_length (l : List NoteState) (i : Nat) (f : NoteState → NoteState) :
    (modifyAt l i f).length = l.length := by
  induction l generalizing i with
  | nil => rfl
  | cons a rest ih =>
    cases i with
    | zero => rfl
    | succ j => simpa [modifyAt] using ih j

/-- `modifyAt` applies `f` at the modified index. -/
theorem modifyAt_get_self (l : List NoteState) (i : Nat) (f : NoteState → NoteState) :
    (modifyAt l i f).get? i = (l.get? i).map f := by
  induction l generalizing i with
  | nil => cases i <;> rfl
  | cons a rest ih =>
    cases i with
    | zero => rfl
    | succ j => simpa [modifyAt] using ih j

/-- `eraseIdx` leaves indices below the erased one untouched. -/
theorem eraseIdx_get_lt {α : Type} (l : List α) (i j : Nat) (hj : j < i) :
    (l.eraseIdx i).get? j = l.get? j := by
  induction l generalizing i j with
  | nil => rfl
  | cons a rest ih =>
    cases i with
    | zero => omega
    | succ k =>
      cases j with
      | zero => rfl
      | succ m => simpa [List.eraseIdx] using ih k m (by omega)

/-- `eraseIdx` shifts indices at or above the erased one down by one. -/
theorem eraseIdx_get_ge {α : Type} (l : List α) (i j : Nat) (hj : i ≤ j) :
    (l.eraseIdx i).get? j = l.get? (j + 1) := by
  induction l generalizing i j with
  | nil => rfl
  | cons a rest ih =>
    cases i with
    | zero => rfl
    | succ k =>
      cases j with
      | zero => omega
      | succ m => simpa [List.eraseIdx] using ih k m (by omega)

/-- The load loop over records written by `save_notes` succeeds and
appends reconstructions of the saved notes, in order. -/
theorem loadLoop_map_encode (dx dy : Int) :
    ∀ (ns : List NoteState) (s : AppState), (∀ n ∈ ns, sizeInv n) →
      ∃ s2, loadLoop dx dy s (ns.map encodeNote) = Except.ok s2 ∧
        s2.notes.map obs = s.notes.map obs ++ ns.map obs
  | [], s, _ => ⟨s, rfl, by simp⟩
  | n :: rest, s, h => by
    obtain ⟨s2, hs2, hobs⟩ := loadLoop_map_encode dx dy rest
      (create_note_safe s dx dy n.text (some (n.x, n.y)) (some (n.width, n.height)))
      (fun m hm => h m (List.mem_cons_of_mem _ hm))
    refine ⟨s2, ?_, ?_⟩
    · simpa only [List.map_cons, loadLoop, decode_encode] using hs2
    · rw [hobs, create_note_safe_notes]
      simp [obs_reconstruct dx dy n (h n (List.mem_cons_self _ _))]

/-! ## C1: save/load round trip -/

/-- C1.  For every list of notes (each satisfying the 100×100 floor that
`setMinimumSize` maintains on every live window), writing the store with
`save_notes` and reloading it with `load_notes` into a fresh session
reproduces the same notes, in order, with identical text, x, y, width and
height. -/
theorem save_then_load_roundtrip (s : AppState) (dx dy : Int)
    (h : ∀ n ∈ s.notes, sizeInv n) :
    ∃ s2, load_notes dx dy { notes := [], file := (save_notes s).file } = Except.ok s2 ∧
      s2.notes.map obs = s.notes.map obs := by
  obtain ⟨s2, hload, hobs⟩ :=
    loadLoop_map_encode dx dy s.notes ⟨[], (save_notes s).file⟩ h
  exact ⟨s2, hload, by simpa using hobs⟩

/-- A two-note session used to exercise the round trip. -/
def rtApp : AppState :=
  ⟨[⟨"hello", 10, 20, 150, 120, false, false, none, none⟩,
    ⟨"", -5, 7, 100, 300, false, false, none, none⟩], FileContent.missing⟩

/-- C1, instantiated: the round trip evaluated on a concrete two-note
session. -/
theorem save_then_load_roundtrip_witness :
    (∀ n ∈ rtApp.notes, sizeInv n) ∧
    ∃ s2, load_notes 0 0 { notes := [], file := (save_notes rtApp).file } = Except.ok s2 ∧
      s2.notes.map obs = rtApp.notes.map obs :=
  ⟨by decide, save_then_load_roundtrip rtApp 0 0 (by decide)⟩

/-! ## C2: every text change rewrites the whole store -/

/-- C2.  Editing the text of note `i` immediately rewrites the store with
one record per live note (the `textChanged` signal calls `save_notes`
synchronously, no debouncing): afterwards the file is exactly the JSON
array of the current in-memory notes, the note count is unchanged, and
note `i` carries the new text. -/
theorem text_change_rewrites_store (s : AppState) (i : Nat) (t : String)
    (h : i < s.notes.length) :
    (setNoteText s i t).file =
      .json (.arr ((setNoteText s i t).notes.map encodeNote)) ∧
    (setNoteText s i t).notes.length = s.notes.length ∧
    ((setNoteText s i t).notes.get? i).map NoteState.text = some t := by
  refine ⟨rfl, modifyAt_length s.notes i _, ?_⟩
  cases hx : s.notes.get? i with
  | none => exact absurd (List.get?_eq_none.mp hx) (by omega)
  | some a =>
    have h1 : (setNoteText s i t).notes.get? i
        = (s.notes.get? i).map (fun n => { n with text := t }) :=
      modifyAt_get_self s.notes i _
    rw [h1, hx]
    rfl

/-- A two-note session used to exercise text editing. -/
def rtApp2 : AppState :=
  ⟨[⟨"alpha", 0, 0, 200, 200, false, false, none, none⟩,
    ⟨"beta", 40, 40, 200, 200, false, false, none, none⟩], FileContent.missing⟩

/-- C2, instantiated: editing the first of two notes. -/
theorem text_change_rewrites_store_witness :
    0 < rtApp2.notes.length ∧
    ((setNoteText rtApp2 0 "edited").file =
      .json (.arr ((setNoteText rtApp2 0 "edited").notes.map encodeNote)) ∧
    (setNoteText rtApp2 0 "edited").notes.length = rtApp2.notes.length ∧
    ((setNoteText rtApp2 0 "edited").notes.get? 0).map NoteState.text = some "edited") :=
  ⟨by decide, text_change_rewrites_store rtApp2 0 "edited" (by decide)⟩

/-! ## C3: which mutations rewrite the store -/

/-- A one-note session whose store is in sync before the drag. -/
def dragNote : NoteState := ⟨"a", 0, 0, 200, 200, false, false, none, none⟩

/-- The synced session: the file holds exactly `dragNote`. -/
def dragApp : AppState := save_notes ⟨[dragNote], FileContent.missing⟩

/-- Press at (10,10) (outside the resize corner, so a drag) and move the
mouse to (40,50): the note moves to (30,40). -/
def dragApp2 : AppState :=
  appMouseMove (appMousePress dragApp 0 .left false 10 10) 0 40 50

/-- C3 counterexample.  `mouseMoveEvent` and `mouseReleaseEvent` never
call `save_notes`: after a drag the note sits at (30,40) but the store
still holds the record saved before the gesture, with the old geometry
(0,0) — the store does not reflect the new geometry after a drag or
resize. -/
theorem drag_leaves_stale_store :
    dragApp2.notes.map obs = [⟨"a", 30, 40, 200, 200⟩] ∧
    dragApp2.file = .json (.arr [encodeNote dragNote]) ∧
    dragApp2.file ≠ .json (.arr (dragApp2.notes.map encodeNote)) := by
  decide

/-- C3 amended.  Text changes and deletions trigger a full rewrite of the
store, but mouse press/move/release (drag and resize) mutate only the
in-memory geometry and leave the file byte-for-byte unchanged; the new
geometry reaches the store only at the next save (text change, deletion,
or quit). -/
theorem mutations_vs_store (s : AppState) (i : Nat) (b : MouseButton)
    (c : Bool) (px py : Int) (j : Nat) (t : String) :
    (appMousePress s i b c px py).file = s.file ∧
    (appMouseMove s i px py).file = s.file ∧
    (appMouseRelease s i).file = s.file ∧
    (setNoteText s j t).file =
      .json (.arr ((setNoteText s j t).notes.map encodeNote)) ∧
    (delete_note s j).file =
      .json (.arr ((delete_note s j).notes.map encodeNote)) :=
  ⟨rfl, rfl, rfl, rfl, rfl⟩

/-! ## C4: deletion removes exactly one note and rewrites the store -/

/-- C4.  Closing note `i` removes exactly that note from the in-memory
list and rewrites the store to exactly the remaining notes: the list
shrinks by one, every earlier note keeps its index, every later note
shifts down by one unchanged, and the file is precisely the JSON array of
the remaining notes. -/
theorem delete_note_removes_exactly (s : AppState) (i : Nat)
    (h : i < s.notes.length) :
    (delete_note s i).notes = s.notes.eraseIdx i ∧
    (delete_note s i).file = .json (.arr ((s.notes.eraseIdx i).map encodeNote)) ∧
    (delete_note s i).notes.length + 1 = s.notes.length ∧
    (∀ j, j < i → (delete_note s i).notes.get? j = s.notes.get? j) ∧
    (∀ j, i ≤ j → (delete_note s i).notes.get? j = s.notes.get? (j + 1)) :=
  ⟨rfl, rfl, List.length_eraseIdx_add_one h,
   fun j hj => eraseIdx_get_lt s.notes i j hj,
   fun j hj => eraseIdx_get_ge s.notes i j hj⟩

/-- A three-note session used to exercise deletion. -/
def delApp : AppState :=
  ⟨[⟨"one", 0, 0, 200, 200, false, false, none, none⟩,
    ⟨"two", 20, 20, 200, 200, false, false, none, none⟩,
    ⟨"three", 40, 40, 200, 200, false, false, none, none⟩], FileContent.missing⟩

/-- C4, instantiated: deleting the middle of three notes. -/
theorem delete_note_removes_exactly_witness :
    1 < delApp.notes.length ∧
    (delete_note delApp 1).notes = delApp.notes.eraseIdx 1 ∧
    (delete_note delApp 1).file =
      .json (.arr ((delApp.notes.eraseIdx 1).map encodeNote)) ∧
    (delete_note delApp 1).notes.length + 1 = delApp.notes.length :=
  ⟨by decide, (delete_note_removes_exactly delApp 1 (by decide)).1,
   (delete_note_removes_exactly delApp 1 (by decide)).2.1,
   (delete_note_removes_exactly delApp 1 (by decide)).2.2.1⟩

/-! ## C5: the 100×100 size floor -/

/-- C5.  Every operation on a note keeps the `setMinimumSize(100, 100)`
floor: a fresh note starts at 200×200, any programmatic `resize` is
clamped by Qt, a resize gesture floors the new size at the minimum for
every mouse delta (however negative), and press/drag/release never change
the size — so `width ≥ 100 ∧ height ≥ 100` holds after every
operation. -/
theorem size_floor_invariant (dx dy : Int) (t : String) (n : NoteState)
    (b : MouseButton) (c : Bool) (px py w h : Int) (hn : sizeInv n) :
    sizeInv (stickyNoteInit dx dy t) ∧
    sizeInv (qtResize n w h) ∧
    sizeInv (mouseMoveEvent n px py) ∧
    sizeInv (mousePressEvent n b c px py) ∧
    sizeInv (mouseReleaseEvent n) := by
  refine ⟨⟨le_max_right _ _, le_max_right _ _⟩,
          ⟨le_max_right _ _, le_max_right _ _⟩, ?_, ?_, hn⟩
  · unfold mouseMoveEvent
    split
    · split
      · exact ⟨le_max_right _ _, le_max_right _ _⟩
      · exact hn
    · split
      · split
        · exact hn
        · exact hn
      · exact hn
  · unfold mousePressEvent
    split_ifs <;> exact hn

/-- A note mid-resize, used to drive the floor with a huge negative
delta. -/
def resNote : NoteState :=
  ⟨"r", 0, 0, 200, 200, false, true, some (150, 150), some (200, 200)⟩

/-- C5, instantiated: a resize gesture pulling the mouse far up-left
still leaves the note at the 100×100 floor. -/
theorem size_floor_invariant_witness :
    sizeInv resNote ∧
    (sizeInv (stickyNoteInit 0 0 "w") ∧
     sizeInv (qtResize resNote (-500) (-500)) ∧
     sizeInv (mouseMoveEvent resNote (-1000) (-1000)) ∧
     sizeInv (mousePressEvent resNote MouseButton.left false 5 5) ∧
     sizeInv (mouseReleaseEvent resNote)) :=
  ⟨by decide,
   size_floor_invariant 0 0 "w" resNote MouseButton.left false
     (-1000) (-1000) (-500) (-500) (by decide)⟩

/-! ## C6: drag vs resize per mouse gesture -/

/-- An idle note whose cursor position (190,190) lies in the resize
corner. -/
def idleNote : NoteState := ⟨"c", 0, 0, 200, 200, false, false, none, none⟩

/-- C6 counterexample.  Not every mouse press enters a gesture state: a
Ctrl+left press — even inside the resize corner — runs
`copy_with_feedback` and enters NEITHER the dragging nor the resizing
state, so "for every mouse press, exactly one of the two states is
entered" fails. -/
theorem ctrl_press_enters_neither :
    (mousePressEvent idleNote MouseButton.left true 190 190).dragging = false ∧
    (mousePressEvent idleNote MouseButton.left true 190 190).resizing = false ∧
    mousePressEvent idleNote MouseButton.left true 190 190 = idleNote := by
  decide

/-- C6 amended.  For every unmodified left-button press on an idle note,
exactly one of dragging/resizing is entered (never both), and the choice
is exactly the corner test — cursor within `resize_margin` of the right
and bottom edges and below the 40 px toolbar; a Ctrl-modified left press
and presses of other buttons enter neither state; a release always
clears both states. -/
theorem press_gesture_state (n : NoteState) (px py : Int)
    (hd : n.dragging = false) (hr : n.resizing = false) :
    ((mousePressEvent n MouseButton.left false px py).dragging
        ≠ (mousePressEvent n MouseButton.left false px py).resizing) ∧
    ((mousePressEvent n MouseButton.left false px py).resizing =
        decide (px > n.width - resize_margin ∧ py > n.height - resize_margin ∧ py > 40)) ∧
    (mousePressEvent n MouseButton.left true px py = n) ∧
    (∀ b : MouseButton, b ≠ MouseButton.left → mousePressEvent n b false px py = n) ∧
    ((mouseReleaseEvent n).dragging = false ∧ (mouseReleaseEvent n).resizing = false) := by
  refine ⟨?_, ?_, rfl, ?_, rfl, rfl⟩
  · by_cases hc : px > n.width - resize_margin ∧ py > n.height - resize_margin ∧ py > 40 <;>
      simp [mousePressEvent, hc, hd, hr]
  · by_cases hc : px > n.width - resize_margin ∧ py > n.height - resize_margin ∧ py > 40 <;>
      simp [mousePressEvent, hc, hd, hr]
  · intro b hb
    cases b <;> simp_all [mousePressEvent]

/-- C6 amended, instantiated on `idleNote` with the cursor at (190,190):
the press arms resizing only, Ctrl/right presses arm nothing, release
clears. -/
theorem press_gesture_state_witness :
    idleNote.dragging = false ∧ idleNote.resizing = false ∧
    ((mousePressEvent idleNote MouseButton.left false 190 190).dragging
        ≠ (mousePressEvent idleNote MouseButton.left false 190 190).resizing) ∧
    ((mousePressEvent idleNote MouseButton.left false 190 190).resizing =
        decide ((190:Int) > idleNote.width - resize_margin ∧
                (190:Int) > idleNote.height - resize_margin ∧ (190:Int) > 40)) ∧
    (mousePressEvent idleNote MouseButton.left true 190 190 = idleNote) ∧
    (mousePressEvent idleNote MouseButton.right false 190 190 = idleNote) :=
  ⟨rfl, rfl,
   (press_gesture_state idleNote 190 190 rfl rfl).1,
   (press_gesture_state idleNote 190 190 rfl rfl).2.1,
   (press_gesture_state idleNote 190 190 rfl rfl).2.2.1,
   (press_gesture_state idleNote 190 190 rfl rfl).2.2.2.1 MouseButton.right (by decide)⟩

/-! ## C7: placement of a note created from the "+" button -/

/-- A session with the oldest note at the origin and the newest far away:
clicking "+" on the oldest note exposes the `cls.notes[-2]` behavior. -/
def plusApp : AppState :=
  ⟨[⟨"first", 0, 0, 200, 200, false, false, none, none⟩,
    ⟨"second", 500, 500, 200, 200, false, false, none, none⟩], FileContent.missing⟩

/-- C7 counterexample.  `create_new_note` is a `@classmethod`, so the
note whose "+" button was clicked is not available to it and every "+"
button runs the same code, which offsets from `cls.notes[-2]` — the most
recently created pre-existing note.  Clicking "+" on the FIRST note (at
(0,0)) of `plusApp` places the new note at (520,520), offset from the
second note at (500,500), not at (20,20) as offsetting from the clicked
note would give. -/
theorem plus_button_ignores_clicked_note :
    ((create_new_note 0 0 plusApp).notes.map (fun n => (n.x, n.y)))
      = [(0, 0), (500, 500), (520, 520)] ∧
    ((520:Int), (520:Int)) ≠ ((0:Int) + 20, (0:Int) + 20) := by
  decide

/-- `getLast?` reads the entry at index `length - 1`. -/
theorem getLast?_eq_get_pred {α : Type} (l : List α) :
    l.getLast? = l.get? (l.length - 1) := by
  induction l with
  | nil => rfl
  | cons a rest ih =>
    cases rest with
    | nil => rfl
    | cons b t => simpa [List.getLast?_cons_cons] using ih

/-- When the notes list is non-empty, the "+" button's new note lands at
the previously-last note's position plus (20,20). -/
theorem create_new_note_last_aux (dx dy : Int) (s : AppState)
    (prev : NoteState) (h : s.notes.getLast? = some prev) :
    (create_new_note dx dy s).notes =
      s.notes ++ [qtMove (stickyNoteInit dx dy "") (prev.x + 20) (prev.y + 20)] := by
  have hne : s.notes ≠ [] := by
    intro he
    rw [he] at h
    exact Option.noConfusion h
  have hlen : 0 < s.notes.length := List.length_pos.mpr hne
  have hget : (s.notes ++ [stickyNoteInit dx dy ""]).get?
      ((s.notes ++ [stickyNoteInit dx dy ""]).length - 2) = some prev := by
    have hidx : (s.notes ++ [stickyNoteInit dx dy ""]).length - 2
        = s.notes.length - 1 := by
      simp only [List.length_append, List.length_singleton]
      omega
    rw [hidx, List.get?_append (by omega), ← getLast?_eq_get_pred]
    exact h
  unfold create_new_note
  rw [if_pos (by simp; omega), hget]

/-- C7 amended.  A note created via any note's "+" button is placed
offset exactly 20 px (in x and y) from the position of the most recently
created pre-existing note — the last element of the class-level notes
list (`cls.notes[-2]` after the append) — regardless of which note's "+"
button was clicked; when the list was empty the note keeps its default
placement. -/
theorem create_new_note_offsets_from_last (dx dy : Int) (s : AppState)
    (prev : NoteState) (h : s.notes.getLast? = some prev) :
    (create_new_note dx dy s).notes =
      s.notes ++ [qtMove (stickyNoteInit dx dy "") (prev.x + 20) (prev.y + 20)] :=
  create_new_note_last_aux dx dy s prev h

/-- C7 amended, instantiated on `plusApp`: the new note lands at the
last note's position plus (20,20). -/
theorem create_new_note_offsets_from_last_witness :
    plusApp.notes.getLast? = some ⟨"second", 500, 500, 200, 200, false, false, none, none⟩ ∧
    (create_new_note 0 0 plusApp).notes =
      plusApp.notes ++ [qtMove (stickyNoteInit 0 0 "") (500 + 20) (500 + 20)] :=
  ⟨by decide,
   create_new_note_offsets_from_last 0 0 plusApp
     ⟨"second", 500, 500, 200, 200, false, false, none, none⟩ (by decide)⟩

/-! ## C8: loading a malformed store raises -/

/-- Binding a constantly-failing continuation fails. -/
theorem option_bind_fun_none {α β : Type} (o : Option α) :
    (o >>= fun _ => (none : Option β)) = none := by
  cases o <;> rfl

/-- A record object missing one of the five required keys fails to
decode (Python raises `KeyError` at the first missing key). -/
theorem decodeNote_missing_key (fields : List (String × Json)) (k : String)
    (hk : k ∈ requiredKeys) (hnone : jlookup fields k = none) :
    decodeNote (.obj fields) = none := by
  simp only [requiredKeys, List.mem_cons, List.not_mem_nil, or_false] at hk
  rcases hk with rfl | rfl | rfl | rfl | rfl <;>
    simp [decodeNote, hnone, option_bind_fun_none]

/-- If any element of the loaded array fails to decode, the load loop
aborts with an error (the exception propagates out of startup). -/
theorem loadLoop_error_of_bad (dx dy : Int) :
    ∀ (elems : List Json) (s : AppState) (j : Json), j ∈ elems → decodeNote j = none →
      ∃ e, loadLoop dx dy s elems = Except.error e
  | [], _, _, hj, _ => absurd hj (List.not_mem_nil _)
  | a :: rest, s, j, hj, hdec => by
    cases ha : decodeNote a with
    | none =>
      exact ⟨"unhandled exception while reading a note record", by simp [loadLoop, ha]⟩
    | some r =>
      rcases List.mem_cons.mp hj with rfl | hmem
      · rw [ha] at hdec
        exact Option.noConfusion hdec
      · obtain ⟨e, he⟩ := loadLoop_error_of_bad dx dy rest
          (create_note_safe s dx dy r.text (some (r.x, r.y))
            (some (r.width, r.height))) j hmem hdec
        exact ⟨e, by simpa [loadLoop, ha] using he⟩

/-- C8.  File I/O at startup is unguarded: when the store file holds
unparseable bytes, `json.load` raises and nothing catches it; when it
holds an array containing a record missing one of the keys text/x/y/
width/height, the load loop raises at that record instead of recovering
or skipping it. -/
theorem malformed_store_fails_load (dx dy : Int) (s : AppState) :
    (s.file = .invalid → ∃ e, load_notes dx dy s = Except.error e) ∧
    (∀ elems fields k, s.file = .json (.arr elems) → Json.obj fields ∈ elems →
      k ∈ requiredKeys → jlookup fields k = none →
      ∃ e, load_notes dx dy s = Except.error e) := by
  constructor
  · intro h
    exact ⟨"json.decoder.JSONDecodeError", by simp [load_notes, h]⟩
  · intro elems fields k hfile hmem hk hnone
    obtain ⟨e, he⟩ := loadLoop_error_of_bad dx dy elems s (.obj fields) hmem
      (decodeNote_missing_key fields k hk hnone)
    exact ⟨e, by simpa [load_notes, hfile] using he⟩

/-- A session whose store holds an array with a record missing the
key "x". -/
def badApp : AppState :=
  ⟨[], FileContent.json (.arr [Json.obj [("text", Json.str "a")]])⟩

/-- C8, instantiated: unparseable bytes fail to load, and so does a
store whose single record only has the key "text". -/
theorem malformed_store_fails_load_witness :
    (AppState.file ⟨[], FileContent.invalid⟩ = FileContent.invalid ∧
      ∃ e, load_notes 0 0 ⟨[], FileContent.invalid⟩ = Except.error e) ∧
    ∃ e, load_notes 0 0 badApp = Except.error e :=
  ⟨⟨rfl, (malformed_store_fails_load 0 0 ⟨[], FileContent.invalid⟩).1 rfl⟩,
   (malformed_store_fails_load 0 0 badApp).2 [Json.obj [("text", Json.str "a")]]
     [("text", Json.str "a")] "x" rfl (by decide) (by decide) (by decide)⟩

/-! ## C9: creating a blank note does not touch the store -/

/-- C9.  A blank note created via the hotkey or the tray menu
(`create_note_safe` with the default empty text) leaves the store file
unchanged: `setPlainText` — and with it the saving `textChanged`
signal — only runs under `if initial_text:`, so creation itself triggers
no save and the fresh note stays absent from the store until a later
text change or deletion rewrites it. -/
theorem blank_note_creation_no_save (s : AppState) (dx dy : Int) :
    (create_note_safe s dx dy "" none none).file = s.file ∧
    (create_note_safe s dx dy "" none none).notes =
      s.notes ++ [stickyNoteInit dx dy ""] := by
  constructor
  · simp [create_note_safe, noteInitApp]
  · rfl

/-! ## C10: shape and order of the persisted file -/

/-- Both branches of `create_new_note` append exactly one note at the
end of the class-level list. -/
theorem create_new_note_appends (dx dy : Int) (s : AppState) :
    ∃ nn, (create_new_note dx dy s).notes = s.notes ++ [nn] := by
  cases hlast : s.notes.getLast? with
  | none =>
    have hnil : s.notes = [] := List.getLast?_eq_none_iff.mp hlast
    refine ⟨stickyNoteInit dx dy "", ?_⟩
    unfold create_new_note
    rw [hnil]
    rfl
  | some prev => exact ⟨_, create_new_note_last_aux dx dy s prev hlast⟩

/-- C10.  Every write of the store produces a JSON array holding, in the
order of the class-level notes list, one object per note with exactly
the five keys text, x, y, width, height; and both note-creation paths
append the new note at the end of that list, so records appear in
note-creation order. -/
theorem store_shape_and_order (s : AppState) (dx dy : Int) (t : String)
    (pos size : Option (Int × Int)) (n : NoteState) :
    (save_notes s).file = .json (.arr (s.notes.map encodeNote)) ∧
    objKeys (encodeNote n) = requiredKeys ∧
    (∃ nn, (create_note_safe s dx dy t pos size).notes = s.notes ++ [nn]) ∧
    (∃ nn, (create_new_note dx dy s).notes = s.notes ++ [nn]) := by
  exact ⟨rfl, rfl, ⟨_, rfl⟩, create_new_note_appends dx dy s⟩

end StickyNotes
